import Mathlib

/-!
Shallow embedding of the emotion-detection core of the EDCG repository
(`emotion_code_project.py`, `code_generator.py`): the ordered fallback
classifier chain (transformer model → TextBlob heuristic → keyword lexicon)
and the emotion → code-template registry.

Text is modelled as `List Char`; Python `None`/exceptions at a strategy
boundary are modelled as `Option`-valued results; the availability flags
`USE_TRANSFORMERS` / `_HAVE_TEXTBLOB` and the external model / sentiment
calls are gathered in a `Config` record so that every
strategy-availability configuration can be quantified over.
-/

/-- The closed emotion label enumeration, in the order the labels are first
defined by `_SIMPLE_LEXICON` in the source. -/
inductive Emotion where
  | happy
  | sad
  | angry
  | fear
  | surprise
  | neutral
deriving DecidableEq

/-- The enumeration order {happy, sad, angry, fear, surprise, neutral}
(the insertion order of the `_SIMPLE_LEXICON` dict in the source). -/
def labelOrder : List Emotion :=
  [.happy, .sad, .angry, .fear, .surprise, .neutral]

/-- Position of a label in the enumeration order. -/
def idx : Emotion → Nat
  | .happy => 0
  | .sad => 1
  | .angry => 2
  | .fear => 3
  | .surprise => 4
  | .neutral => 5

/-- Python `str` whitespace (the ASCII part relevant to `str.strip()`):
space, tab, newline, carriage return, vertical tab, form feed. -/
def isPySpace (c : Char) : Bool :=
  c = ' ' || c = '\t' || c = '\n' || c = '\r' || c = '\x0b' || c = '\x0c'

/-- Remove leading Python whitespace (`str.lstrip()`). -/
def lstrip (t : List Char) : List Char := t.dropWhile isPySpace

/-- Remove trailing Python whitespace (`str.rstrip()`). -/
def rstrip (t : List Char) : List Char :=
  (t.reverse.dropWhile isPySpace).reverse

/-- Python `str.strip()`: remove leading and trailing whitespace. -/
def pyStrip (t : List Char) : List Char := rstrip (lstrip t)

/-- Python substring test `w in txt`. -/
def containsSub (w : List Char) : List Char → Bool
  | [] => w.isEmpty
  | c :: rest => w.isPrefixOf (c :: rest) || containsSub w rest

/-- Helper for `countOccs`: scans left to right; after a match the
remaining `w.length - 1` characters of the matched block are skipped
(tracked by the `skip` counter), giving Python's non-overlapping count. -/
def countOccsAux (w : List Char) : List Char → Nat → Nat
  | [], _ => 0
  | _ :: rest, Nat.succ skip => countOccsAux w rest skip
  | c :: rest, 0 =>
    if w.isPrefixOf (c :: rest) then 1 + countOccsAux w rest (w.length - 1)
    else countOccsAux w rest 0

/-- Python `txt.count(w)`: non-overlapping left-to-right occurrence count. -/
def countOccs (w t : List Char) : Nat := countOccsAux w t 0

/-- The `_SIMPLE_LEXICON` keyword table from the source. -/
def _SIMPLE_LEXICON : Emotion → List (List Char)
  | .happy => ["happy", "joy", "glad", "excited", "elated", "amazing",
               "great", "fantastic", "love", "yay"].map String.toList
  | .sad => ["sad", "down", "unhappy", "depressed", "sorrow", "tears"].map String.toList
  | .angry => ["angry", "mad", "furious", "irritated", "annoyed", "hate"].map String.toList
  | .fear => ["scared", "afraid", "fear", "terrified", "anxious", "nervous"].map String.toList
  | .surprise => ["surprised", "shocked", "wow", "unexpected"].map String.toList
  | .neutral => ["okay", "fine", "neutral", "normal"].map String.toList

/-- `scores[k]` after the inner loop of `lexicon_emotion`: for each keyword
`w` of label `k`, if `w in txt` then add `txt.count(w)`. -/
def scoreOf (txt : List Char) (k : Emotion) : Nat :=
  (_SIMPLE_LEXICON k).foldl
    (fun acc w => if containsSub w txt then acc + countOccs w txt else acc) 0

/-- Python `max(keys, key=f)` starting from initial candidate `b`:
a later element replaces the current best only when its key is strictly
greater, so the first maximum wins. -/
def maxKey (f : Emotion → Nat) : List Emotion → Emotion → Emotion
  | [], b => b
  | e :: rest, b => maxKey f rest (if f b < f e then e else b)

/-- `max(scores, key=lambda k: scores[k])` over the dict whose keys are in
`labelOrder`: fold starting from `happy` over the remaining labels. -/
def pyMax (f : Emotion → Nat) : Emotion :=
  maxKey f [.sad, .angry, .fear, .surprise, .neutral] .happy

/-- `lexicon_emotion` from the source: lower-case the text, score each
label by summed keyword substring counts, take the first-defined maximum,
and return `neutral` when the best score is zero. -/
def lexicon_emotion (text : List Char) : Emotion :=
  let txt := text.map Char.toLower
  let best := pyMax (scoreOf txt)
  if scoreOf txt best = 0 then .neutral else best

/-- `textblob_sentiment_emotion` from the source. `haveTB` models
`_HAVE_TEXTBLOB`; `sentiment` models the `TextBlob(text).sentiment` call,
returning `none` when that call raises (the `except` branch). -/
def textblob_sentiment_emotion (haveTB : Bool)
    (sentiment : List Char → Option (ℚ × ℚ)) (text : List Char) : Option Emotion :=
  if haveTB then
    match sentiment text with
    | none => none
    | some (p, s) =>
      if p > 0.4 then some .happy
      else if p < -0.3 then some .sad
      else if s > 0.7 ∧ |p| < 0.1 then some .angry
      else some .neutral
  else none

/-- The label-normalization chain of `transformer_emotion`: ordered
substring checks on the (lower-cased) raw model label. -/
def normalizeLabel (label : List Char) : Emotion :=
  if containsSub "joy".toList label || containsSub "happy".toList label then .happy
  else if containsSub "sad".toList label then .sad
  else if containsSub "anger".toList label || containsSub "angry".toList label then .angry
  else if containsSub "fear".toList label then .fear
  else if containsSub "surprise".toList label then .surprise
  else if containsSub "love".toList label then .happy
  else .neutral

/-- `transformer_emotion` from the source. `useT` models
`USE_TRANSFORMERS`; `pipe` models `_transformer_pipeline` (`none` when the
pipeline object is `None`); the pipeline call receives `text[:512]` and
returns `none` when it raises, otherwise the list of raw result labels
(top-ranked first, each later lower-cased and normalized). An empty result
list falls through the `if` and yields `None`. -/
def transformer_emotion (useT : Bool)
    (pipe : Option (List Char → Option (List (List Char))))
    (text : List Char) : Option Emotion :=
  match useT, pipe with
  | true, some f =>
    match f (text.take 512) with
    | none => none
    | some [] => none
    | some (label :: _) => some (normalizeLabel (label.map Char.toLower))
  | _, _ => none

/-- One strategy-availability configuration: the module-level flags and
external calls that `detect_emotion` reads. -/
structure Config where
  use_transformers : Bool
  pipe : Option (List Char → Option (List (List Char)))
  have_textblob : Bool
  sentiment : List Char → Option (ℚ × ℚ)

/-- `detect_emotion` from the source: degenerate input short-circuits to
`neutral`; otherwise the stripped text goes through transformer, then
TextBlob, then lexicon, returning the first label produced (`if e:` in the
source tests non-`None`, and every label string is truthy). -/
def detect_emotion (cfg : Config) (text0 : List Char) : Emotion :=
  if text0 = [] ∨ pyStrip text0 = [] then .neutral
  else
    let text := pyStrip text0
    match (if cfg.use_transformers then
             transformer_emotion cfg.use_transformers cfg.pipe text
           else none) with
    | some e => e
    | none =>
      match (if cfg.have_textblob then
               textblob_sentiment_emotion cfg.have_textblob cfg.sentiment text
             else none) with
      | some e => e
      | none => lexicon_emotion text

/-- A configuration where only the lexicon strategy is available
(no transformers, no TextBlob). -/
def lexiconOnlyConfig : Config :=
  ⟨false, none, false, fun _ => none⟩

/-- Two successive calls of `detect_emotion` with the same configuration
and text; the configuration holds every piece of module-level state the
source function reads, and nothing is written. -/
def classifyTwice (cfg : Config) (t : List Char) : Emotion × Emotion :=
  (detect_emotion cfg t, detect_emotion cfg t)

/-- One `{title, code}` template registry entry. -/
structure Template where
  title : String
  code : String
deriving DecidableEq

/-- The `TEMPLATES` table from the source (keys in definition order). -/
def TEMPLATES : List (String × Template) :=
  [("happy",
    ⟨"Mini Game: Guess the Number",
     "# Guess the Number - Feel good mini game\nimport random\n\nsecret = random.randint(1, 50)\nprint(\"Guess the secret number between 1 and 50. Good luck!\")\ntries = 0\nwhile True:\n    try:\n        guess = int(input(\"Your guess: \"))\n    except Exception:\n        print(\"Please enter an integer.\")\n        continue\n    tries += 1\n    if guess == secret:\n        print(f\"🎉 Correct! You guessed it in {tries} tries. Well played!\")\n        break\n    elif guess < secret:\n        print(\"Too low!\")\n    else:\n        print(\"Too high!\")\n"⟩),
   ("sad",
    ⟨"Breathing Exercise (Calm)",
     "# Breathing Exercise - 5 rounds\nimport time\n\nprint(\"Let\x27s do a simple 5-round breathing exercise. Follow the prompts.\")\nfor i in range(1,6):\n    print(f\"Round {i}: Breathe in for 4 seconds...\")\n    time.sleep(4)\n    print(\"Hold for 2 seconds...\")\n    time.sleep(2)\n    print(\"Breathe out for 6 seconds...\")\n    time.sleep(6)\nprint(\"Completed. Hope you feel a bit calmer.\")\n"⟩),
   ("angry",
    ⟨"Punching Bag Simulator (Console)",
     "# Punching Bag - Angry energy outlet (console)\nimport time\n\nprint(\"Type \x27punch\x27 and press enter to hit the virtual bag. Type \x27quit\x27 to stop.\")\ncount = 0\nwhile True:\n    cmd = input(\x27> \x27).strip().lower()\n    if cmd == \x27quit\x27:\n        print(f\"You released energy {count} times. Take a breath.\")\n        break\n    if cmd == \x27punch\x27:\n        count += 1\n        print(\"💥 Boom! Energy released.\")\n    else:\n        print(\"Type \x27punch\x27 or \x27quit\x27.\")\n"⟩),
   ("fear",
    ⟨"Focus Timer (Pomodoro-lite)",
     "# Focus Timer (25/5) simple\nimport time\n\nwork = 25*60\nrest = 5*60\nprint(\"Starting a 25-minute focus session. Press Ctrl+C to cancel.\")\ntry:\n    time.sleep(5)  # small demo wait\n    print(\"(Demo) Work period finished. Take a 5-minute break.\")\nexcept KeyboardInterrupt:\n    print(\"Session cancelled. It\x27s ok to pause and reset.\")\n"⟩),
   ("surprise",
    ⟨"Random Fun Fact (Surprise)",
     "# Random fun facts - small list\nimport random\nfacts = [\n    \x27Honey never spoils.\x27,\n    \x27A day on Venus is longer than a year on Venus.\x27,\n    \x27Bananas are berries, but strawberries are not.\x27\n]\nprint(\"Here is a surprise fact:\")\nprint(random.choice(facts))\n"⟩),
   ("neutral",
    ⟨"Template: Hello World Script",
     "# Neutral starter\nprint(\"Hello world! This is a neutral starter script.\")\n"⟩)]

/-- The registry lookup at the head of `generate_code_for_emotion`:
`emotion = emotion if emotion in TEMPLATES else 'neutral'` followed by
`TEMPLATES[emotion]`. -/
def lookupTemplate (emotion0 : String) : Template :=
  let emotion := if TEMPLATES.any fun kv => kv.fst == emotion0 then emotion0 else "neutral"
  (((TEMPLATES.find? fun kv => kv.fst == emotion).map Prod.snd).getD ⟨"", ""⟩)

/-- `generate_code_for_emotion` from the source, with the
`datetime.utcnow().isoformat()` timestamp passed in explicitly as `now`.
A `custom_topic` of `none` or of the empty string is falsy in the source
and selects the topic-less header. -/
def generate_code_for_emotion (emotion0 : String) (custom_topic : Option String)
    (now : String) : Template :=
  let emotion := if TEMPLATES.any fun kv => kv.fst == emotion0 then emotion0 else "neutral"
  let template := lookupTemplate emotion0
  let header :=
    match custom_topic with
    | some topic =>
      if topic = "" then "# Emotion: " ++ emotion ++ "\n# Generated at " ++ now ++ "Z\n\n"
      else "# Generated for topic: " ++ topic ++ "\n# Emotion: " ++ emotion ++
           "\n# Generated at " ++ now ++ "Z\n\n"
    | none => "# Emotion: " ++ emotion ++ "\n# Generated at " ++ now ++ "Z\n\n"
  ⟨template.title, header ++ template.code⟩

/-- `generate_code` from `code_generator.py` (the reduced 4-label app
variant): a dict lookup with a non-template default string. -/
def generate_code (emotion : String) : String :=
  let emotion_to_code : List (String × String) :=
    [("happy", "print(\x27Smile bro Karan 2.0! Life is awesome!\x27)"),
     ("sad", "print(\x27Stay strong Karan 2.0, better days are coming!\x27)"),
     ("angry", "print(\x27Take a deep breath Karan 2.0, calm down.\x27)"),
     ("neutral", "print(\x27Neutral mood detected.\x27)")]
  ((emotion_to_code.find? fun kv => kv.fst == emotion).map Prod.snd).getD
    "print(\x27Emotion not recognized\x27)"


/-! ## Helper lemmas -/

/-- Every emotion occurs in the enumeration order list. -/
theorem mem_labelOrder (e : Emotion) : e ∈ labelOrder := by
  cases e <;> simp [labelOrder]

/-- `maxKey` never decreases the key of the running candidate. -/
theorem maxKey_ge_init (f : Emotion → Nat) (l : List Emotion) (b : Emotion) :
    f b ≤ f (maxKey f l b) := by
  induction l generalizing b with
  | nil => exact le_rfl
  | cons a rest ih =>
    show f b ≤ f (maxKey f rest (if f b < f a then a else b))
    by_cases h : f b < f a
    · simp only [h, if_true]
      exact le_trans (le_of_lt h) (ih a)
    · simp only [h, if_false]
      exact ih b

/-- The `maxKey` result key dominates every scanned element's key. -/
theorem maxKey_ge_mem (f : Emotion → Nat) (l : List Emotion) (b : Emotion)
    (e : Emotion) (he : e ∈ l) : f e ≤ f (maxKey f l b) := by
  induction l generalizing b with
  | nil => cases he
  | cons a rest ih =>
    show f e ≤ f (maxKey f rest (if f b < f a then a else b))
    rcases List.mem_cons.mp he with rfl | hmem
    · by_cases h : f b < f e
      · simp only [h, if_true]
        exact maxKey_ge_init f rest e
      · simp only [h, if_false]
        exact le_trans (le_of_not_lt h) (maxKey_ge_init f rest b)
    · exact ih _ hmem

/-- First-maximum-wins: the `maxKey` result is either the initial
candidate, or it occurs in the list strictly beating the initial candidate
and everything listed before it. -/
theorem maxKey_first (f : Emotion → Nat) (l : List Emotion) (b : Emotion) :
    maxKey f l b = b ∨
      ∃ l₁ l₂, l = l₁ ++ maxKey f l b :: l₂ ∧
        ∀ x ∈ b :: l₁, f x < f (maxKey f l b) := by
  induction l generalizing b with
  | nil => exact Or.inl rfl
  | cons a rest ih =>
    have hstep : maxKey f (a :: rest) b = maxKey f rest (if f b < f a then a else b) := rfl
    by_cases h : f b < f a
    · rw [hstep, if_pos h]
      rcases ih a with h1 | ⟨l₁, l₂, heq, hlt⟩
      · right
        refine ⟨[], rest, ?_, ?_⟩
        · rw [h1]; rfl
        · intro x hx
          rw [h1]
          rcases List.mem_cons.mp hx with rfl | hx'
          · exact h
          · cases hx'
      · right
        refine ⟨a :: l₁, l₂, ?_, ?_⟩
        · rw [List.cons_append, ← heq]
        · intro x hx
          have ha : f a < f (maxKey f rest a) := hlt a (List.mem_cons_self a l₁)
          rcases List.mem_cons.mp hx with rfl | hx'
          · exact lt_trans h ha
          · exact hlt x hx'
    · rw [hstep, if_neg h]
      rcases ih b with h1 | ⟨l₁, l₂, heq, hlt⟩
      · exact Or.inl h1
      · right
        refine ⟨a :: l₁, l₂, ?_, ?_⟩
        · rw [List.cons_append, ← heq]
        · intro x hx
          have hb : f b < f (maxKey f rest b) := hlt b (List.mem_cons_self b l₁)
          rcases List.mem_cons.mp hx with rfl | hx'
          · exact hb
          · rcases List.mem_cons.mp hx' with rfl | hx''
            · exact lt_of_le_of_lt (le_of_not_lt h) hb
            · exact hlt x (List.mem_cons_of_mem b hx'')

/-- The key of `pyMax f` dominates every label's key. -/
theorem le_pyMax (f : Emotion → Nat) (e : Emotion) : f e ≤ f (pyMax f) := by
  cases e with
  | happy => exact maxKey_ge_init f _ _
  | sad => exact maxKey_ge_mem f _ _ _ (by simp)
  | angry => exact maxKey_ge_mem f _ _ _ (by simp)
  | fear => exact maxKey_ge_mem f _ _ _ (by simp)
  | surprise => exact maxKey_ge_mem f _ _ _ (by simp)
  | neutral => exact maxKey_ge_mem f _ _ _ (by simp)

/-- The enumeration order list is sorted by `idx`. -/
theorem labelOrder_pairwise : labelOrder.Pairwise (fun a b => idx a ≤ idx b) := by
  decide

/-- Ties in `pyMax` resolve to the earlier label in enumeration order. -/
theorem pyMax_tiebreak (f : Emotion → Nat) (e : Emotion)
    (h : f e = f (pyMax f)) : idx (pyMax f) ≤ idx e := by
  rcases maxKey_first f [.sad, .angry, .fear, .surprise, .neutral] .happy with
    h1 | ⟨l₁, l₂, heq, hlt⟩
  · have hp : pyMax f = .happy := h1
    rw [hp]
    exact Nat.zero_le _
  · have hnotbefore : e ∉ Emotion.happy :: l₁ := by
      intro hmem
      have := hlt e hmem
      rw [h] at this
      exact lt_irrefl _ this
    have hmemall : e ∈ Emotion.happy :: (l₁ ++ pyMax f :: l₂) := by
      have h0 : e ∈ labelOrder := mem_labelOrder e
      have : labelOrder = Emotion.happy :: (l₁ ++ pyMax f :: l₂) := by
        show labelOrder = _
        rw [labelOrder]
        rw [show ([.sad, .angry, .fear, .surprise, .neutral] : List Emotion)
              = l₁ ++ pyMax f :: l₂ from heq]
      rw [← this]
      exact h0
    have hsuffix : e ∈ pyMax f :: l₂ := by
      rcases List.mem_cons.mp hmemall with rfl | hmem2
      · exact absurd (List.mem_cons_self _ _) hnotbefore
      · rcases List.mem_append.mp hmem2 with hl | hr
        · exact absurd (List.mem_cons_of_mem _ hl) hnotbefore
        · exact hr
    have hsub : (pyMax f :: l₂).Sublist labelOrder := by
      have h2 : (pyMax f :: l₂).Sublist (l₁ ++ pyMax f :: l₂) :=
        List.sublist_append_right l₁ _
      have h3 : labelOrder = Emotion.happy :: (l₁ ++ pyMax f :: l₂) := by
        rw [labelOrder]
        rw [show ([.sad, .angry, .fear, .surprise, .neutral] : List Emotion)
              = l₁ ++ pyMax f :: l₂ from heq]
      rw [h3]
      exact h2.cons _
    have hpw : (pyMax f :: l₂).Pairwise (fun a b => idx a ≤ idx b) :=
      labelOrder_pairwise.sublist hsub
    rcases List.mem_cons.mp hsuffix with rfl | hmem3
    · exact le_rfl
    · exact (List.pairwise_cons.mp hpw).1 e hmem3

/-- `lstrip` of a cons. -/
theorem lstrip_cons (c : Char) (t : List Char) :
    lstrip (c :: t) = if isPySpace c then lstrip t else c :: t :=
  List.dropWhile_cons ..

/-- `lstrip` of an all-whitespace list is empty. -/
theorem lstrip_eq_nil_of_all (t : List Char)
    (h : ∀ c ∈ t, isPySpace c = true) : lstrip t = [] :=
  List.dropWhile_eq_nil_iff.mpr h

/-- If `lstrip` empties a list, it was all whitespace. -/
theorem all_of_lstrip_eq_nil (t : List Char) (h : lstrip t = []) :
    ∀ c ∈ t, isPySpace c = true :=
  List.dropWhile_eq_nil_iff.mp h

/-- `lstrip` is idempotent. -/
theorem lstrip_idem (t : List Char) : lstrip (lstrip t) = lstrip t := by
  induction t with
  | nil => rfl
  | cons c rest ih =>
    rw [lstrip_cons]
    by_cases hc : isPySpace c = true
    · rw [if_pos hc]
      exact ih
    · rw [if_neg hc, lstrip_cons, if_neg hc]

/-- Dropping whitespace jumps over an all-whitespace prefix. -/
theorem lstrip_append_space (ws t : List Char)
    (h : ∀ c ∈ ws, isPySpace c = true) : lstrip (ws ++ t) = lstrip t := by
  induction ws with
  | nil => rfl
  | cons c rest ih =>
    rw [List.cons_append, lstrip_cons, if_pos (h c (List.mem_cons_self c rest))]
    exact ih fun x hx => h x (List.mem_cons_of_mem c hx)

/-- A nonempty `lstrip` result is unaffected by a trailing appendix. -/
theorem lstrip_append_of_ne_nil (t ws : List Char) (h : lstrip t ≠ []) :
    lstrip (t ++ ws) = lstrip t ++ ws := by
  induction t with
  | nil => exact absurd rfl h
  | cons c rest ih =>
    rw [lstrip_cons] at h
    by_cases hc : isPySpace c = true
    · rw [if_pos hc] at h
      rw [List.cons_append, lstrip_cons c (rest ++ ws), if_pos hc,
        lstrip_cons c rest, if_pos hc]
      exact ih h
    · rw [if_neg hc] at h
      rw [List.cons_append, lstrip_cons c (rest ++ ws), if_neg hc,
        lstrip_cons c rest, if_neg hc]
      rfl

/-- `rstrip` written through `lstrip` on the reversed list. -/
theorem rstrip_eq (x : List Char) : rstrip x = (lstrip x.reverse).reverse := rfl

/-- `rstrip` ignores an all-whitespace suffix. -/
theorem rstrip_append_space (x ws : List Char)
    (h : ∀ c ∈ ws, isPySpace c = true) : rstrip (x ++ ws) = rstrip x := by
  rw [rstrip_eq, rstrip_eq, List.reverse_append,
    lstrip_append_space ws.reverse x.reverse
      fun c hc => h c (List.mem_reverse.mp hc)]

/-- `lstrip` keeps the final element when it is not whitespace. -/
theorem lstrip_append_last (l : List Char) (c : Char)
    (h : isPySpace c = false) : ∃ y, lstrip (l ++ [c]) = y ++ [c] := by
  induction l with
  | nil =>
    refine ⟨[], ?_⟩
    rw [List.nil_append, lstrip_cons, if_neg (by simp [h])]
  | cons a rest ih =>
    rw [List.cons_append, lstrip_cons]
    by_cases ha : isPySpace a = true
    · rw [if_pos ha]
      exact ih
    · rw [if_neg ha]
      exact ⟨a :: rest, rfl⟩

/-- If a list already has no leading whitespace, `rstrip`ping it leaves
no leading whitespace either. -/
theorem lstrip_rstrip_of_lstripped (x : List Char) (h : lstrip x = x) :
    lstrip (rstrip x) = rstrip x := by
  cases x with
  | nil => rfl
  | cons c x' =>
    have hc : isPySpace c = false := by
      by_contra hcon
      have hc' : isPySpace c = true := by
        cases hval : isPySpace c
        · exact absurd hval hcon
        · rfl
      rw [lstrip_cons, if_pos hc'] at h
      have hlen := congrArg List.length h
      have hle : (lstrip x').length ≤ x'.length :=
        List.Sublist.length_le (List.dropWhile_sublist isPySpace)
      simp only [List.length_cons] at hlen
      omega
    obtain ⟨y, hy⟩ := lstrip_append_last x'.reverse c hc
    have hr : rstrip (c :: x') = c :: y.reverse := by
      rw [rstrip_eq, List.reverse_cons, hy, List.reverse_append]
      rfl
    rw [hr, lstrip_cons, if_neg (by simp [hc])]

/-- `rstrip` is idempotent. -/
theorem rstrip_idem (x : List Char) : rstrip (rstrip x) = rstrip x := by
  rw [rstrip_eq x, rstrip_eq, List.reverse_reverse, lstrip_idem]

/-- `pyStrip` is idempotent. -/
theorem pyStrip_idem (t : List Char) : pyStrip (pyStrip t) = pyStrip t := by
  show rstrip (lstrip (rstrip (lstrip t))) = rstrip (lstrip t)
  rw [lstrip_rstrip_of_lstripped (lstrip t) (lstrip_idem t), rstrip_idem]

/-- `pyStrip` ignores all-whitespace padding on both sides. -/
theorem pyStrip_pad (ws1 t ws2 : List Char)
    (h1 : ∀ c ∈ ws1, isPySpace c = true) (h2 : ∀ c ∈ ws2, isPySpace c = true) :
    pyStrip (ws1 ++ t ++ ws2) = pyStrip t := by
  show rstrip (lstrip (ws1 ++ t ++ ws2)) = rstrip (lstrip t)
  rw [List.append_assoc, lstrip_append_space ws1 (t ++ ws2) h1]
  by_cases hnil : lstrip t = []
  · have hall : ∀ c ∈ t, isPySpace c = true := all_of_lstrip_eq_nil t hnil
    have hall2 : ∀ c ∈ t ++ ws2, isPySpace c = true := by
      intro c hc
      rcases List.mem_append.mp hc with hl | hr
      · exact hall c hl
      · exact h2 c hr
    rw [lstrip_eq_nil_of_all (t ++ ws2) hall2, hnil]
  · rw [lstrip_append_of_ne_nil t ws2 hnil, rstrip_append_space _ ws2 h2]

/-- `pyStrip [] = []`. -/
theorem pyStrip_nil : pyStrip ([] : List Char) = [] := rfl

/-- `detect_emotion` depends on its input only through the stripped text. -/
theorem detect_congr (cfg : Config) (u v : List Char)
    (h : pyStrip u = pyStrip v) : detect_emotion cfg u = detect_emotion cfg v := by
  unfold detect_emotion
  by_cases hc : pyStrip v = []
  · rw [if_pos (Or.inr (h.trans hc)), if_pos (Or.inr hc)]
  · have hu : ¬(u = [] ∨ pyStrip u = []) := by
      rintro (rfl | h')
      · exact hc (pyStrip_nil ▸ h ▸ rfl)
      · exact hc (h ▸ h')
    have hv : ¬(v = [] ∨ pyStrip v = []) := by
      rintro (rfl | h')
      · exact hc pyStrip_nil
      · exact hc h'
    rw [if_neg hu, if_neg hv, h]

/-! ## Claim theorems -/

/-- C1: for every strategy-availability configuration (including
unavailable or internally faulting transformer / TextBlob strategies,
modelled by `false` flags, a `none` pipeline, or external calls returning
`none`) and every input text, `detect_emotion` returns a value of the
closed six-label enumeration — by construction it returns normally and
never an empty/null result. -/
theorem detect_emotion_total (cfg : Config) (t : List Char) :
    detect_emotion cfg t ∈ labelOrder :=
  mem_labelOrder (detect_emotion cfg t)

/-- C5: for every strategy-availability configuration, the empty string
and any all-whitespace string short-circuit to `neutral`; the result does
not depend on any strategy of the configuration. -/
theorem classify_degenerate (cfg : Config) (t : List Char)
    (h : ∀ c ∈ t, isPySpace c = true) : detect_emotion cfg t = .neutral := by
  have hs : pyStrip t = [] := by
    show rstrip (lstrip t) = []
    rw [lstrip_eq_nil_of_all t h]
    rfl
  unfold detect_emotion
  rw [if_pos (Or.inr hs)]

/-- Witness for C5 at the all-whitespace input `"   "`. -/
theorem classify_degenerate_witness :
    (∀ c ∈ ("   ".toList), isPySpace c = true)
  ∧ detect_emotion lexiconOnlyConfig ("   ".toList) = .neutral :=
  ⟨by decide, classify_degenerate lexiconOnlyConfig ("   ".toList) (by decide)⟩

/-- C8: `classify` is deterministic — the embedding of `detect_emotion`
is a pure function of the configuration (which carries all module-level
state the source function reads: the two availability flags, the pipeline
handle and the sentiment backend) and the text, and the source mutates
none of that state, so two successive calls agree. -/
theorem classify_deterministic (cfg : Config) (t : List Char) :
    (classifyTwice cfg t).1 = (classifyTwice cfg t).2 := rfl

/-- C10: surrounding the text with any leading/trailing whitespace does
not change the classification, which equals that of the stripped text. -/
theorem whitespace_invariance (cfg : Config) (ws1 t ws2 : List Char)
    (h1 : ∀ c ∈ ws1, isPySpace c = true) (h2 : ∀ c ∈ ws2, isPySpace c = true) :
    detect_emotion cfg (ws1 ++ t ++ ws2) = detect_emotion cfg (pyStrip t) := by
  apply detect_congr
  rw [pyStrip_pad ws1 t ws2 h1 h2, pyStrip_idem]

/-- Witness for C10 at `"  " ++ "yay" ++ "\n"` with the lexicon-only
configuration. -/
theorem whitespace_invariance_witness :
    (∀ c ∈ ("  ".toList), isPySpace c = true)
  ∧ (∀ c ∈ ("\n".toList), isPySpace c = true)
  ∧ detect_emotion lexiconOnlyConfig ("  ".toList ++ "yay".toList ++ "\n".toList)
      = detect_emotion lexiconOnlyConfig (pyStrip ("yay".toList)) :=
  ⟨by decide, by decide,
   whitespace_invariance lexiconOnlyConfig ("  ".toList) ("yay".toList)
     ("\n".toList) (by decide) (by decide)⟩

/-- C2: on non-degenerate text the chain returns the transformer's label
when it produces one; otherwise the TextBlob label when it produces one;
otherwise the lexicon result — so a transformer label (e.g. `sad`)
overrides whatever the other strategies would have said. -/
theorem chain_precedence :
    (∀ (cfg : Config) (t : List Char) (e : Emotion),
        pyStrip t ≠ [] →
        transformer_emotion cfg.use_transformers cfg.pipe (pyStrip t) = some e →
        detect_emotion cfg t = e)
  ∧ (∀ (cfg : Config) (t : List Char) (e : Emotion),
        pyStrip t ≠ [] →
        transformer_emotion cfg.use_transformers cfg.pipe (pyStrip t) = none →
        textblob_sentiment_emotion cfg.have_textblob cfg.sentiment (pyStrip t) = some e →
        detect_emotion cfg t = e)
  ∧ (∀ (cfg : Config) (t : List Char),
        pyStrip t ≠ [] →
        transformer_emotion cfg.use_transformers cfg.pipe (pyStrip t) = none →
        textblob_sentiment_emotion cfg.have_textblob cfg.sentiment (pyStrip t) = none →
        detect_emotion cfg t = lexicon_emotion (pyStrip t)) := by
  refine ⟨?_, ?_, ?_⟩
  · intro cfg t e hne htr
    have hcond : ¬(t = [] ∨ pyStrip t = []) := by
      rintro (rfl | h')
      · exact hne pyStrip_nil
      · exact hne h'
    have huse : cfg.use_transformers = true := by
      cases hu : cfg.use_transformers
      · rw [hu] at htr
        exact absurd htr (by simp [transformer_emotion])
      · rfl
    rw [huse] at htr
    simp only [detect_emotion, hcond, if_false, huse, if_true, htr]
  · intro cfg t e hne htr htb
    have hcond : ¬(t = [] ∨ pyStrip t = []) := by
      rintro (rfl | h')
      · exact hne pyStrip_nil
      · exact hne h'
    have he1 : (if cfg.use_transformers then
        transformer_emotion cfg.use_transformers cfg.pipe (pyStrip t)
      else none) = none := by
      by_cases hu : cfg.use_transformers = true
      · rw [if_pos hu]
        exact htr
      · rw [if_neg hu]
    have htbf : cfg.have_textblob = true := by
      cases hb : cfg.have_textblob
      · rw [hb] at htb
        exact absurd htb (by simp [textblob_sentiment_emotion])
      · rfl
    rw [htbf] at htb
    simp only [detect_emotion, hcond, if_false, he1, htbf, if_true, htb]
  · intro cfg t hne htr htb
    have hcond : ¬(t = [] ∨ pyStrip t = []) := by
      rintro (rfl | h')
      · exact hne pyStrip_nil
      · exact hne h'
    have he1 : (if cfg.use_transformers then
        transformer_emotion cfg.use_transformers cfg.pipe (pyStrip t)
      else none) = none := by
      by_cases hu : cfg.use_transformers = true
      · rw [if_pos hu]
        exact htr
      · rw [if_neg hu]
    have he2 : (if cfg.have_textblob then
        textblob_sentiment_emotion cfg.have_textblob cfg.sentiment (pyStrip t)
      else none) = none := by
      by_cases hb : cfg.have_textblob = true
      · rw [if_pos hb]
        exact htb
      · rw [if_neg hb]
    simp only [detect_emotion, hcond, if_false, he1, he2]

/-- Witness for C2: a transformer returning raw label `"sadness"` forces
the result `sad` on a text whose lexicon classification is `happy`. -/
theorem chain_precedence_witness :
    pyStrip ("I am so happy and glad".toList) ≠ []
  ∧ transformer_emotion true (some fun _ => some ["sadness".toList])
      (pyStrip ("I am so happy and glad".toList)) = some Emotion.sad
  ∧ detect_emotion
      ⟨true, some fun _ => some ["sadness".toList], true, fun _ => some (0.9, 0)⟩
      ("I am so happy and glad".toList) = Emotion.sad
  ∧ lexicon_emotion (pyStrip ("I am so happy and glad".toList)) = Emotion.happy :=
  ⟨by decide, by decide,
   chain_precedence.1
     ⟨true, some fun _ => some ["sadness".toList], true, fun _ => some (0.9, 0)⟩
     ("I am so happy and glad".toList) Emotion.sad (by decide) (by decide),
   by decide⟩

/-- C4: the heuristic decision policy on a computed polarity `p` and
subjectivity `s`: `p > 0.4 → happy`; else `p < -0.3 → sad`; else
`s > 0.7 ∧ |p| < 0.1 → angry`; otherwise `neutral` (the guards of the
first three branches are mutually exclusive, so each can be stated
independently). -/
theorem heuristic_policy (f : List Char → Option (ℚ × ℚ)) (t : List Char)
    (p s : ℚ) (hf : f t = some (p, s)) :
    ((0.4 : ℚ) < p → textblob_sentiment_emotion true f t = some .happy)
  ∧ (p < -0.3 → textblob_sentiment_emotion true f t = some .sad)
  ∧ ((0.7 : ℚ) < s → |p| < 0.1 → textblob_sentiment_emotion true f t = some .angry)
  ∧ (p ≤ 0.4 → -0.3 ≤ p → (s ≤ 0.7 ∨ (0.1 : ℚ) ≤ |p|) →
      textblob_sentiment_emotion true f t = some .neutral) := by
  have he : textblob_sentiment_emotion true f t =
      (if p > 0.4 then some .happy
       else if p < -0.3 then some .sad
       else if s > 0.7 ∧ |p| < 0.1 then some .angry
       else some .neutral) := by
    simp only [textblob_sentiment_emotion, if_true, hf]
  refine ⟨?_, ?_, ?_, ?_⟩
  · intro h1
    rw [he, if_pos h1]
  · intro h2
    have hn1 : ¬(p > 0.4) := by linarith
    rw [he, if_neg hn1, if_pos h2]
  · intro h3 h4
    obtain ⟨h4a, h4b⟩ := abs_lt.mp h4
    have hn1 : ¬(p > 0.4) := by linarith
    have hn2 : ¬(p < -0.3) := by linarith
    rw [he, if_neg hn1, if_neg hn2, if_pos ⟨h3, h4⟩]
  · intro h1 h2 h3
    have hn1 : ¬(p > 0.4) := not_lt.mpr h1
    have hn2 : ¬(p < -0.3) := not_lt.mpr h2
    have hn3 : ¬(s > 0.7 ∧ |p| < 0.1) := by
      rintro ⟨ha, hb⟩
      rcases h3 with hs | hp
      · linarith
      · linarith
    rw [he, if_neg hn1, if_neg hn2, if_neg hn3]

/-- Witness for C4 at the four stubbed sentiment values of the claim:
polarity 0.5 → happy, -0.5 → sad, 0 with subjectivity 0.9 → angry,
0 with subjectivity 0.2 → neutral. -/
theorem heuristic_policy_witness :
    textblob_sentiment_emotion true (fun _ => some (0.5, 0.5)) [] = some Emotion.happy
  ∧ textblob_sentiment_emotion true (fun _ => some (-0.5, 0.5)) [] = some Emotion.sad
  ∧ textblob_sentiment_emotion true (fun _ => some (0, 0.9)) [] = some Emotion.angry
  ∧ textblob_sentiment_emotion true (fun _ => some (0, 0.2)) [] = some Emotion.neutral :=
  ⟨(heuristic_policy (fun _ => some (0.5, 0.5)) [] 0.5 0.5 rfl).1 (by norm_num),
   (heuristic_policy (fun _ => some (-0.5, 0.5)) [] (-0.5) 0.5 rfl).2.1 (by norm_num),
   (heuristic_policy (fun _ => some (0, 0.9)) [] 0 0.9 rfl).2.2.1 (by norm_num)
     (by rw [abs_zero]; norm_num),
   (heuristic_policy (fun _ => some (0, 0.2)) [] 0 0.2 rfl).2.2.2 (by norm_num)
     (by norm_num) (Or.inl (by norm_num))⟩

/-- C3: the lexicon strategy lower-cases the input and scores labels by
summed substring-occurrence counts of their keywords; the result's score
is maximal; ties between positive scores resolve to the earlier label in
enumeration order; an all-zero score table yields `neutral`; with only
this strategy available, "I am so happy and glad" classifies as `happy`;
and the substring matching plus case-folding make "SADLY" score as `sad`. -/
theorem lexicon_spec :
    (∀ (t : List Char) (e : Emotion),
        scoreOf (t.map Char.toLower) e ≤ scoreOf (t.map Char.toLower) (lexicon_emotion t))
  ∧ (∀ t : List Char, (∀ e, scoreOf (t.map Char.toLower) e = 0) →
        lexicon_emotion t = .neutral)
  ∧ (∀ (t : List Char) (e : Emotion),
        0 < scoreOf (t.map Char.toLower) (lexicon_emotion t) →
        scoreOf (t.map Char.toLower) e = scoreOf (t.map Char.toLower) (lexicon_emotion t) →
        idx (lexicon_emotion t) ≤ idx e)
  ∧ detect_emotion lexiconOnlyConfig ("I am so happy and glad".toList) = .happy
  ∧ lexicon_emotion ("SADLY".toList) = .sad := by
  refine ⟨?_, ?_, ?_, by decide, by decide⟩
  · intro t e
    by_cases h0 : scoreOf (t.map Char.toLower) (pyMax (scoreOf (t.map Char.toLower))) = 0
    · have hl : lexicon_emotion t = .neutral := by
        simp only [lexicon_emotion, h0, if_true]
      rw [hl]
      have h1 := le_pyMax (scoreOf (t.map Char.toLower)) e
      rw [h0] at h1
      omega
    · have hl : lexicon_emotion t = pyMax (scoreOf (t.map Char.toLower)) := by
        simp only [lexicon_emotion, h0, if_false]
      rw [hl]
      exact le_pyMax (scoreOf (t.map Char.toLower)) e
  · intro t h
    simp only [lexicon_emotion, h (pyMax (scoreOf (t.map Char.toLower))), if_true]
  · intro t e h0 htie
    have hnz : ¬ scoreOf (t.map Char.toLower) (pyMax (scoreOf (t.map Char.toLower))) = 0 := by
      intro hz
      have hl : lexicon_emotion t = .neutral := by
        simp only [lexicon_emotion, hz, if_true]
      rw [hl] at h0
      have h1 := le_pyMax (scoreOf (t.map Char.toLower)) Emotion.neutral
      rw [hz] at h1
      omega
    have hl : lexicon_emotion t = pyMax (scoreOf (t.map Char.toLower)) := by
      simp only [lexicon_emotion, hnz, if_false]
    rw [hl] at htie ⊢
    exact pyMax_tiebreak (scoreOf (t.map Char.toLower)) e htie

/-- Witness for C3 applying the tie-break conjunct at `"sad love"`, where
`happy` (via keyword "love") and `sad` (via keyword "sad") both score 1
and the earlier label `happy` wins. -/
theorem lexicon_spec_witness :
    0 < scoreOf (("sad love".toList).map Char.toLower)
          (lexicon_emotion ("sad love".toList))
  ∧ scoreOf (("sad love".toList).map Char.toLower) Emotion.sad
      = scoreOf (("sad love".toList).map Char.toLower)
          (lexicon_emotion ("sad love".toList))
  ∧ idx (lexicon_emotion ("sad love".toList)) ≤ idx Emotion.sad :=
  ⟨by decide, by decide,
   lexicon_spec.2.2.1 ("sad love".toList) Emotion.sad (by decide) (by decide)⟩

/-- C6: the transformer strategy truncates its input to the first 512
characters; a disabled flag, missing pipeline, raising pipeline call, or
empty result list all convert to "not available" (`none`); a produced raw
label is lower-cased and normalized by the ordered mapping table
(joy/happy → happy, sad → sad, anger/angry → angry, fear → fear,
surprise → surprise, love → happy, anything unrecognized → neutral). -/
theorem transformer_contract :
    (∀ (u : Bool) (pp : Option (List Char → Option (List (List Char)))) (t : List Char),
        transformer_emotion u pp t = transformer_emotion u pp (t.take 512))
  ∧ (∀ pp t, transformer_emotion false pp t = none)
  ∧ (∀ u t, transformer_emotion u none t = none)
  ∧ (∀ f t, f (t.take 512) = none → transformer_emotion true (some f) t = none)
  ∧ (∀ f t, f (t.take 512) = some [] → transformer_emotion true (some f) t = none)
  ∧ (∀ f t l rest, f (t.take 512) = some (l :: rest) →
        transformer_emotion true (some f) t = some (normalizeLabel (l.map Char.toLower)))
  ∧ (∀ l, (containsSub "joy".toList l || containsSub "happy".toList l) = true →
        normalizeLabel l = .happy)
  ∧ (∀ l, (containsSub "joy".toList l || containsSub "happy".toList l) = false →
        containsSub "sad".toList l = true → normalizeLabel l = .sad)
  ∧ (∀ l, (containsSub "joy".toList l || containsSub "happy".toList l) = false →
        containsSub "sad".toList l = false →
        (containsSub "anger".toList l || containsSub "angry".toList l) = true →
        normalizeLabel l = .angry)
  ∧ (∀ l, (containsSub "joy".toList l || containsSub "happy".toList l) = false →
        containsSub "sad".toList l = false →
        (containsSub "anger".toList l || containsSub "angry".toList l) = false →
        containsSub "fear".toList l = true → normalizeLabel l = .fear)
  ∧ (∀ l, (containsSub "joy".toList l || containsSub "happy".toList l) = false →
        containsSub "sad".toList l = false →
        (containsSub "anger".toList l || containsSub "angry".toList l) = false →
        containsSub "fear".toList l = false →
        containsSub "surprise".toList l = true → normalizeLabel l = .surprise)
  ∧ (∀ l, (containsSub "joy".toList l || containsSub "happy".toList l) = false →
        containsSub "sad".toList l = false →
        (containsSub "anger".toList l || containsSub "angry".toList l) = false →
        containsSub "fear".toList l = false →
        containsSub "surprise".toList l = false →
        containsSub "love".toList l = true → normalizeLabel l = .happy)
  ∧ (∀ l, (containsSub "joy".toList l || containsSub "happy".toList l) = false →
        containsSub "sad".toList l = false →
        (containsSub "anger".toList l || containsSub "angry".toList l) = false →
        containsSub "fear".toList l = false →
        containsSub "surprise".toList l = false →
        containsSub "love".toList l = false → normalizeLabel l = .neutral) := by
  refine ⟨?_, fun pp t => rfl, ?_, ?_, ?_, ?_, ?_, ?_, ?_, ?_, ?_, ?_, ?_⟩
  · intro u pp t
    cases u
    · rfl
    · cases pp
      · rfl
      · simp [transformer_emotion, List.take_take]
  · intro u t
    cases u <;> rfl
  · intro f t h
    simp [transformer_emotion, h]
  · intro f t h
    simp [transformer_emotion, h]
  · intro f t l rest h
    simp [transformer_emotion, h]
  · intro l h
    unfold normalizeLabel
    rw [if_pos h]
  · intro l h1 h2
    unfold normalizeLabel
    rw [if_neg (by rw [h1]; exact Bool.false_ne_true), if_pos h2]
  · intro l h1 h2 h3
    unfold normalizeLabel
    rw [if_neg (by rw [h1]; exact Bool.false_ne_true),
      if_neg (by rw [h2]; exact Bool.false_ne_true), if_pos h3]
  · intro l h1 h2 h3 h4
    unfold normalizeLabel
    rw [if_neg (by rw [h1]; exact Bool.false_ne_true),
      if_neg (by rw [h2]; exact Bool.false_ne_true),
      if_neg (by rw [h3]; exact Bool.false_ne_true), if_pos h4]
  · intro l h1 h2 h3 h4 h5
    unfold normalizeLabel
    rw [if_neg (by rw [h1]; exact Bool.false_ne_true),
      if_neg (by rw [h2]; exact Bool.false_ne_true),
      if_neg (by rw [h3]; exact Bool.false_ne_true),
      if_neg (by rw [h4]; exact Bool.false_ne_true), if_pos h5]
  · intro l h1 h2 h3 h4 h5 h6
    unfold normalizeLabel
    rw [if_neg (by rw [h1]; exact Bool.false_ne_true),
      if_neg (by rw [h2]; exact Bool.false_ne_true),
      if_neg (by rw [h3]; exact Bool.false_ne_true),
      if_neg (by rw [h4]; exact Bool.false_ne_true),
      if_neg (by rw [h5]; exact Bool.false_ne_true), if_pos h6]
  · intro l h1 h2 h3 h4 h5 h6
    unfold normalizeLabel
    rw [if_neg (by rw [h1]; exact Bool.false_ne_true),
      if_neg (by rw [h2]; exact Bool.false_ne_true),
      if_neg (by rw [h3]; exact Bool.false_ne_true),
      if_neg (by rw [h4]; exact Bool.false_ne_true),
      if_neg (by rw [h5]; exact Bool.false_ne_true),
      if_neg (by rw [h6]; exact Bool.false_ne_true)]

/-- Witness for C6: a raising pipeline converts to `none`; raw label
"sadness" normalizes to `sad`; unrecognized raw label "disgust"
normalizes to `neutral`. -/
theorem transformer_contract_witness :
    transformer_emotion true (some fun _ => none) [] = none
  ∧ normalizeLabel ("sadness".toList) = Emotion.sad
  ∧ normalizeLabel ("disgust".toList) = Emotion.neutral :=
  ⟨transformer_contract.2.2.2.1 (fun _ => none) [] rfl,
   transformer_contract.2.2.2.2.2.2.2.1 ("sadness".toList) (by decide) (by decide),
   transformer_contract.2.2.2.2.2.2.2.2.2.2.2.2 ("disgust".toList) (by decide)
     (by decide) (by decide) (by decide) (by decide) (by decide)⟩

/-- C7: the `TEMPLATES` registry has a `{title, code}` entry for each of
the six enumeration labels, and the lookup maps any key outside the table
to the `neutral` entry. -/
theorem template_registry :
    (∀ lab ∈ (["happy", "sad", "angry", "fear", "surprise", "neutral"] : List String),
        (TEMPLATES.find? fun kv => kv.fst == lab).isSome = true)
  ∧ (∀ s : String, (TEMPLATES.any fun kv => kv.fst == s) = false →
        lookupTemplate s = lookupTemplate "neutral") := by
  constructor
  · decide
  · intro s hs
    have h1 : lookupTemplate s =
        ((TEMPLATES.find? fun kv => kv.fst == "neutral").map Prod.snd).getD ⟨"", ""⟩ := by
      unfold lookupTemplate
      rw [if_neg (by rw [hs]; exact Bool.false_ne_true)]
    rw [h1]
    rfl

/-- Witness for C7: the registry has a `fear` entry, and the
out-of-enumeration key "bogus" falls back to the `neutral` entry. -/
theorem template_registry_witness :
    (TEMPLATES.find? fun kv => kv.fst == "fear").isSome = true
  ∧ (TEMPLATES.any fun kv => kv.fst == "bogus") = false
  ∧ lookupTemplate "bogus" = lookupTemplate "neutral" :=
  ⟨template_registry.1 "fear" (by decide), by decide,
   template_registry.2 "bogus" (by decide)⟩

/-- C9: whenever the TextBlob strategy is enabled and its sentiment call
returns a polarity/subjectivity pair (i.e. it does not fault), it yields
some label out of {happy, sad, angry, neutral}; consequently, with the
transformer unavailable (flag off or pipeline missing) and TextBlob
available and non-faulting, the chain never reaches the lexicon and the
classification of any non-degenerate text is confined to
{happy, sad, angry, neutral} — `fear` and `surprise` are unreachable. -/
theorem heuristic_confines :
    (∀ (f : List Char → Option (ℚ × ℚ)) (t : List Char) (p s : ℚ),
        f t = some (p, s) →
        ∃ e, textblob_sentiment_emotion true f t = some e
          ∧ e ∈ [Emotion.happy, Emotion.sad, Emotion.angry, Emotion.neutral])
  ∧ (∀ (cfg : Config) (t : List Char) (p s : ℚ),
        (cfg.use_transformers = false ∨ cfg.pipe = none) →
        cfg.have_textblob = true →
        cfg.sentiment (pyStrip t) = some (p, s) →
        pyStrip t ≠ [] →
        detect_emotion cfg t ∈ [Emotion.happy, Emotion.sad, Emotion.angry, Emotion.neutral]) := by
  have part1 : ∀ (f : List Char → Option (ℚ × ℚ)) (t : List Char) (p s : ℚ),
      f t = some (p, s) →
      ∃ e, textblob_sentiment_emotion true f t = some e
        ∧ e ∈ [Emotion.happy, Emotion.sad, Emotion.angry, Emotion.neutral] := by
    intro f t p s hf
    simp only [textblob_sentiment_emotion, if_true, hf]
    split_ifs with h1 h2 h3
    · exact ⟨.happy, rfl, by simp⟩
    · exact ⟨.sad, rfl, by simp⟩
    · exact ⟨.angry, rfl, by simp⟩
    · exact ⟨.neutral, rfl, by simp⟩
  refine ⟨part1, ?_⟩
  intro cfg t p s hModel htbf hsent hne
  have hcond : ¬(t = [] ∨ pyStrip t = []) := by
    rintro (rfl | h')
    · exact hne pyStrip_nil
    · exact hne h'
  have he1 : (if cfg.use_transformers then
      transformer_emotion cfg.use_transformers cfg.pipe (pyStrip t)
    else none) = none := by
    rcases hModel with hu | hp
    · rw [if_neg (by rw [hu]; exact Bool.false_ne_true)]
    · by_cases hu : cfg.use_transformers = true
      · rw [if_pos hu, hu, hp]
        rfl
      · rw [if_neg hu]
  obtain ⟨e, he, hmem⟩ := part1 cfg.sentiment (pyStrip t) p s hsent
  simp only [detect_emotion, hcond, if_false, he1, htbf, if_true, he]
  exact hmem

/-- Witness for C9: transformer off, TextBlob available with sentiment
(0, 0) on "hello"; the result lies in {happy, sad, angry, neutral}. -/
theorem heuristic_confines_witness :
    detect_emotion ⟨false, none, true, fun _ => some (0, 0)⟩ ("hello".toList)
      ∈ [Emotion.happy, Emotion.sad, Emotion.angry, Emotion.neutral] :=
  heuristic_confines.2 ⟨false, none, true, fun _ => some (0, 0)⟩ ("hello".toList)
    0 0 (Or.inl rfl) rfl rfl (by decide)
